import Mathlib

/-!
Verification development for the otter-sql in-memory SQL engine.

The register-based virtual machine (`src/vm.rs`) and the expression tree with
its lowering from the parser AST (`src/expr.rs`) are embedded shallowly below.
The supporting catalog and value types (`value.rs`, `table.rs`, `column.rs`,
`schema.rs`, `database.rs`, `ic.rs`, `expr/eval.rs`) are not part of the
provided sources; where they are needed they are modelled from the
specification, as indicated on each definition.

`HashMap`s are modelled as association lists whose insert replaces any
previous binding of the key.  A Rust panic (`todo!()`, `unwrap()` failure,
out-of-bounds indexing) is a distinct outcome of execution, separate from the
typed `RuntimeError` results.
-/

namespace OtterSql

/-- Association-list lookup, modelling `HashMap::get`. -/
def mapGet {k v : Type} [DecidableEq k] (m : List (k × v)) (key : k) : Option v :=
  (m.find? (fun p => decide (p.1 = key))).map (fun p => p.2)

/-- Association-list insert, modelling `HashMap::insert` (replaces any
previous binding of the key). -/
def mapInsert {k v : Type} [DecidableEq k] (m : List (k × v)) (key : k) (x : v) :
    List (k × v) :=
  (key, x) :: m.filter (fun p => decide (p.1 ≠ key))

/-- Association-list removal, modelling `HashMap::remove`. -/
def mapRemove {k v : Type} [DecidableEq k] (m : List (k × v)) (key : k) :
    List (k × v) :=
  m.filter (fun p => decide (p.1 ≠ key))

/-- An index that can be used to access a specific register (vm.rs). -/
structure RegisterIndex where
  val : Nat
deriving DecidableEq

/-- Get the next register index in the sequence (vm.rs). -/
def RegisterIndex.next_index (r : RegisterIndex) : RegisterIndex :=
  ⟨r.val + 1⟩

/-- An index that can be used as a reference to a table (vm.rs). -/
structure TableIndex where
  val : Nat
deriving DecidableEq

/-- Get the next table index in the sequence (vm.rs). -/
def TableIndex.next_index (t : TableIndex) : TableIndex :=
  ⟨t.val + 1⟩

/-- Modelled from the spec: the `DataType` of a value (the value system in
`value.rs` is absent from the sources).  Only the scalar kinds exercised by
the embedded operations are included; floating and date/time kinds are
omitted. -/
inductive DataType where
  | int
  | boolean
  | text
  | nullType
deriving DecidableEq

/-- Modelled from the spec: a tagged scalar `Value` (§3; `value.rs` is absent
from the sources): `Null`, `Bool`, an integer variant and a string variant.
Floating and date/time variants are omitted; no claim depends on them. -/
inductive Value where
  | null
  | bool (b : Bool)
  | int64 (i : Int)
  | varchar (s : String)
deriving DecidableEq

/-- Modelled from the spec: every `Value` reports a `DataType` (§3). -/
def Value.data_type : Value → DataType
  | .null => .nullType
  | .bool _ => .boolean
  | .int64 _ => .int
  | .varchar _ => .text

/-- Modelled from the spec: constructor rank used for the cross-type part of
the total order on values; nulls sort as smaller than every non-null value
(§4.2 Order semantics). -/
def Value.rank : Value → Nat
  | .null => 0
  | .bool _ => 1
  | .int64 _ => 2
  | .varchar _ => 3

/-- Modelled from the spec: the total order on `Value` used for sorting
(§3, §4.2 Order semantics). -/
def Value.le (a b : Value) : Bool :=
  match a, b with
  | .null, _ => true
  | _, .null => false
  | .bool x, .bool y => !x || y
  | .int64 x, .int64 y => decide (x ≤ y)
  | .varchar x, .varchar y => decide (x < y) || decide (x = y)
  | a, b => decide (a.rank ≤ b.rank)

/-- Modelled from the spec: a structurally preserved column option
(nullability, default, uniqueness markers; §3). -/
inductive ColumnOption where
  | notNull
  | unique
  | primaryKey
  | defaultValue (v : Value)
deriving DecidableEq

/-- Modelled from the spec: a column with a bounded name, a `DataType`, an
ordered list of options, and a primary-key flag (§3; `column.rs` is absent
from the sources).  Bounded strings are modelled as plain strings. -/
structure Column where
  name : String
  data_type : DataType
  options : List ColumnOption
  is_primary_key : Bool
deriving DecidableEq

/-- Modelled from the spec: `Column::new` (`column.rs` is absent from the
sources), as used by vm.rs. -/
def Column.new (name : String) (dt : DataType) (opts : List ColumnOption)
    (pk : Bool) : Column :=
  ⟨name, dt, opts, pk⟩

/-- Modelled from the spec: `Column::add_column_option` (`column.rs` is absent
from the sources) appends an option. -/
def Column.add_column_option (c : Column) (o : ColumnOption) : Column :=
  { c with options := c.options ++ [o] }

/-- Modelled from the spec: a row is an ordered tuple of values; vm.rs
accesses its `data` field. -/
structure Row where
  data : List Value
deriving DecidableEq

/-- A one- or two-part table reference (identifier.rs is absent from the
sources; the shape is taken from its uses in vm.rs). -/
structure TableRef where
  schema_name : Option String
  table_name : String
deriving DecidableEq

/-- Modelled from the spec: a table with an ordered column list, ordered raw
row data and a temporary flag (§3; `table.rs` is absent from the sources). -/
structure Table where
  name : String
  columns : List Column
  raw_data : List Row
  is_temp : Bool
deriving DecidableEq

/-- Modelled from the spec: the name synthesized for a temporary table from
its handle index (§3). -/
def tempTableName (idx : Nat) : String :=
  "temp_table_" ++ toString idx

/-- Modelled from the spec: `Table::new_temp` (`table.rs` is absent from the
sources), a fresh anonymous temporary table named after its handle index. -/
def Table.new_temp (idx : Nat) : Table :=
  ⟨tempTableName idx, [], [], true⟩

/-- Modelled from the spec: `Table::is_empty` (`table.rs` is absent from the
sources); §4.2 Project reads "`in` and `out` must have identical row counts
or `out` must be empty", so emptiness is about the row data. -/
def Table.is_empty (t : Table) : Bool :=
  t.raw_data.isEmpty

/-- Modelled from the spec: `Table::add_column` (`table.rs` is absent from the
sources) appends a column definition. -/
def Table.add_column (t : Table) (c : Column) : Table :=
  { t with columns := t.columns ++ [c] }

/-- Modelled from the spec: `Table::new_row` (`table.rs` is absent from the
sources) appends a row of values; rows are appended in order (§4.2 Insert
semantics). -/
def Table.new_row (t : Table) (vals : List Value) : Table :=
  { t with raw_data := t.raw_data ++ [⟨vals⟩] }

/-- Modelled from the spec: `Table::rename` (`table.rs` is absent from the
sources); `NewTable` names the temporary table. -/
def Table.rename (t : Table) (n : String) : Table :=
  { t with name := n }

/-- Find a column and its position by name. -/
def findColumn : List Column → String → Nat → Option (Nat × Column)
  | [], _, _ => none
  | c :: cs, n, i => if c.name = n then some (i, c) else findColumn cs n (i + 1)

/-- A binary operator (expr.rs). -/
inductive BinOp where
  | plus
  | minus
  | multiply
  | divide
  | modulo
  | equal
  | notEqual
  | lessThan
  | lessThanOrEqual
  | greaterThan
  | greaterThanOrEqual
  | like
  | iLike
  | and
  | or
deriving DecidableEq

/-- A unary operator (expr.rs). -/
inductive UnOp where
  | plus
  | minus
  | not
  | isFalse
  | isTrue
  | isNull
  | isNotNull
deriving DecidableEq

/-- An expression (expr.rs).  `ObjectName` is modelled as the list of its
identifier parts. -/
inductive Expr where
  | value (v : Value)
  | columnRef (name : List String)
  | wildcard
  | binary (left : Expr) (op : BinOp) (right : Expr)
  | unary (op : UnOp) (operand : Expr)
  | function (name : String) (args : List Expr)

/-- Modelled from the spec: expression-evaluation failures (§4.1, §7;
`expr/eval.rs` is absent from the sources). -/
inductive ExprExecError where
  | columnNotFound (name : String)
  | wildcardNotAllowed
  | divisionByZero
  | typeMismatch (reason : String)
  | unknownFunction (name : String)
deriving DecidableEq

/-- Modelled from the spec: SQL `LIKE` wildcard matching, `%` matching any
run and `_` a single character (§4.1). -/
def likeMatch : List Char → List Char → Bool
  | [], [] => true
  | [], _ :: _ => false
  | '%' :: ps, [] => likeMatch ps []
  | '%' :: ps, c :: cs => likeMatch ps (c :: cs) || likeMatch ('%' :: ps) cs
  | '_' :: _, [] => false
  | '_' :: ps, _ :: cs => likeMatch ps cs
  | _ :: _, [] => false
  | p :: ps, c :: cs => (p == c) && likeMatch ps cs
termination_by p s => p.length + s.length

/-- Modelled from the spec: Kleene three-valued `AND` by truth table
(§4.1). -/
def kleeneAnd : Value → Value → Except ExprExecError Value
  | .bool false, .bool _ => .ok (.bool false)
  | .bool false, .null => .ok (.bool false)
  | .null, .bool false => .ok (.bool false)
  | .bool true, .bool b => .ok (.bool b)
  | .bool true, .null => .ok .null
  | .null, .bool true => .ok .null
  | .null, .null => .ok .null
  | _, _ => .error (.typeMismatch "AND on non-boolean")

/-- Modelled from the spec: Kleene three-valued `OR` by truth table (§4.1). -/
def kleeneOr : Value → Value → Except ExprExecError Value
  | .bool true, .bool _ => .ok (.bool true)
  | .bool true, .null => .ok (.bool true)
  | .null, .bool true => .ok (.bool true)
  | .bool false, .bool b => .ok (.bool b)
  | .bool false, .null => .ok .null
  | .null, .bool false => .ok .null
  | .null, .null => .ok .null
  | _, _ => .error (.typeMismatch "OR on non-boolean")

/-- Modelled from the spec: within-type comparison of values; cross-type
comparison fails with a typed error (§3). -/
def compareValues (a b : Value) : Except ExprExecError Ordering :=
  match a, b with
  | .int64 x, .int64 y => .ok (compare x y)
  | .varchar x, .varchar y => .ok (compare x y)
  | .bool x, .bool y => .ok (compare x y)
  | _, _ => .error (.typeMismatch "comparison between incompatible types")

/-- Modelled from the spec: binary-operator evaluation (§4.1): `And`/`Or` by
Kleene truth tables, `Null` propagation elsewhere, integer arithmetic with
`DivisionByZero`, comparisons returning `Bool`, and `LIKE`/`ILIKE` wildcard
matching. -/
def evalBinOp : BinOp → Value → Value → Except ExprExecError Value
  | .and, a, b => kleeneAnd a b
  | .or, a, b => kleeneOr a b
  | _, .null, _ => .ok .null
  | _, _, .null => .ok .null
  | .plus, .int64 x, .int64 y => .ok (.int64 (x + y))
  | .minus, .int64 x, .int64 y => .ok (.int64 (x - y))
  | .multiply, .int64 x, .int64 y => .ok (.int64 (x * y))
  | .divide, .int64 x, .int64 y =>
    if y = 0 then .error .divisionByZero else .ok (.int64 (Int.tdiv x y))
  | .modulo, .int64 x, .int64 y =>
    if y = 0 then .error .divisionByZero else .ok (.int64 (Int.tmod x y))
  | .equal, a, b => (compareValues a b).map (fun o => .bool (decide (o = .eq)))
  | .notEqual, a, b => (compareValues a b).map (fun o => .bool (decide (o ≠ .eq)))
  | .lessThan, a, b => (compareValues a b).map (fun o => .bool (decide (o = .lt)))
  | .lessThanOrEqual, a, b =>
    (compareValues a b).map (fun o => .bool (decide (o ≠ .gt)))
  | .greaterThan, a, b => (compareValues a b).map (fun o => .bool (decide (o = .gt)))
  | .greaterThanOrEqual, a, b =>
    (compareValues a b).map (fun o => .bool (decide (o ≠ .lt)))
  | .like, .varchar s, .varchar p => .ok (.bool (likeMatch p.toList s.toList))
  | .iLike, .varchar s, .varchar p =>
    .ok (.bool (likeMatch p.toLower.toList s.toLower.toList))
  | _, _, _ => .error (.typeMismatch "operator applied to unsupported values")

/-- Modelled from the spec: unary-operator evaluation (§4.1): `Not(Null) =
Null`, `IsNull(Null) = true`, `IsTrue(Null) = false`, `IsFalse(Null) =
false`, `IsNotNull` the negation of `IsNull`, arithmetic propagating
`Null`. -/
def evalUnOp : UnOp → Value → Except ExprExecError Value
  | .plus, .int64 i => .ok (.int64 i)
  | .plus, .null => .ok .null
  | .minus, .int64 i => .ok (.int64 (-i))
  | .minus, .null => .ok .null
  | .not, .bool b => .ok (.bool (!b))
  | .not, .null => .ok .null
  | .isNull, v => .ok (.bool (decide (v = .null)))
  | .isNotNull, v => .ok (.bool (!decide (v = .null)))
  | .isTrue, v => .ok (.bool (decide (v = .bool true)))
  | .isFalse, v => .ok (.bool (decide (v = .bool false)))
  | _, _ => .error (.typeMismatch "unary operator applied to unsupported value")

/-- Modelled from the spec: `Expr::execute`, the pure evaluation of an
expression against a table and a row (§4.1; `expr/eval.rs` is absent from the
sources).  `ColumnRef` resolves by (last-part) name against the table's
columns, `Value` returns the literal, a standalone `Wildcard` fails, and
`Function` calls fail with `UnknownFunction` (the fixed registry is modelled
as empty; no claim depends on its contents). -/
def Expr.execute (e : Expr) (t : Table) (r : Row) : Except ExprExecError Value :=
  match e with
  | .value v => .ok v
  | .columnRef name =>
    let colName := name.getLastD ""
    match findColumn t.columns colName 0 with
    | some (i, _) =>
      match r.data.get? i with
      | some v => .ok v
      | none => .error (.columnNotFound colName)
    | none => .error (.columnNotFound colName)
  | .wildcard => .error .wildcardNotAllowed
  | .unary op operand =>
    match Expr.execute operand t r with
    | .ok v => evalUnOp op v
    | .error err => .error err
  | .binary l op rt =>
    match Expr.execute l t r with
    | .error err => .error err
    | .ok lv =>
      match Expr.execute rt t r with
      | .error err => .error err
      | .ok rv => evalBinOp op lv rv
  | .function name _ => .error (.unknownFunction name)

/-- Modelled from the spec: `Table::sentinel_row` (`table.rs` is absent from
the sources) always succeeds and returns a row of typed nulls of the table's
arity (§3/§9); vm.rs treats it as fallible, hence the `Except`. -/
def Table.sentinel_row (t : Table) : Except ExprExecError Row :=
  .ok ⟨t.columns.map (fun _ => Value.null)⟩

/-- An abstract definition of an insert statement (vm.rs `InsertDef`). -/
structure InsertDef where
  table : TableIndex
  columns : List (Nat × Column)
  rows : List (List Value)

/-- Source `InsertDef::new` (vm.rs). -/
def InsertDef.new (table : TableIndex) : InsertDef :=
  ⟨table, [], []⟩

/-- A row of values to insert (vm.rs `InsertRow`); `defReg` is the source's
field `def`, renamed because `def` is reserved in Lean. -/
structure InsertRow where
  defReg : RegisterIndex
  row_index : Nat

/-- A register in the executor VM (vm.rs `Register`). -/
inductive Register where
  | tableRef (t : TableIndex)
  | groupedTable (grouped_col : Column) (other_cols : List Column)
      (data : List (Value × List Row))
  | tableDef (name : String) (columns : List Column)
  | column (c : Column)
  | insertDef (d : InsertDef)
  | insertRow (r : InsertRow)
  | value (v : Value)
  | expr (e : Expr)

/-- VM-time failures (vm.rs `RuntimeError`).  The `ColumnNotFound` payload is
modelled as the plain column name. -/
inductive RuntimeError where
  | columnNotFound (c : String)
  | tableNotFound (t : TableRef)
  | tableExists (t : TableRef)
  | schemaNotFound (s : String)
  | schemaExists (s : String)
  | emptyRegister (r : RegisterIndex)
  | registerNotATable (op : String) (r : Register)
  | registerNotAColumn (op : String) (r : Register)
  | registerNotAInsert (op : String) (r : Register)
  | registerNotAInsertRow (op : String) (r : Register)
  | cannotReturn (r : Register)
  | filterWithNonBoolean (e : Expr) (v : Value)
  | projectOnNonEmptyTable (name : String)
  | projectTableSizeMismatch (inp_table_name : String) (inp_table_len : Nat)
      (out_table_name : String) (out_table_len : Nat)
  | tableNewColumnSizeMismatch (table_name : String) (table_len : Nat)
      (col_name : String) (col_len : Nat)
  | unsupportedType (d : DataType)
  | exprExecError (e : ExprExecError)

/-- Modelled from the spec: `Table::get_column` (`table.rs` is absent from the
sources), the position and definition of the column with the given name, else
`ColumnNotFound`. -/
def Table.get_column (t : Table) (n : String) : Except RuntimeError (Nat × Column) :=
  match findColumn t.columns n 0 with
  | some p => .ok p
  | none => .error (.columnNotFound n)

/-- Modelled from the spec: `Table::get_column_data` (`table.rs` is absent from
the sources), the named column's values across all rows, in row order. -/
def Table.get_column_data (t : Table) (n : String) : Except RuntimeError (List Value) :=
  match findColumn t.columns n 0 with
  | some (i, _) => .ok (t.raw_data.map (fun r => r.data.getD i Value.null))
  | none => .error (.columnNotFound n)

/-- Modelled from the spec: `Table::add_column_data` (`table.rs` is absent from
the sources), the column-by-column copy used by `Project` on `*`; when the
table has no rows yet, rows are created, otherwise the lengths must agree
(§4.2 Project semantics). -/
def Table.add_column_data (t : Table) (n : String) (data : List Value) :
    Except RuntimeError Table :=
  if t.raw_data.isEmpty then
    .ok { t with raw_data := data.map (fun v => ⟨[v]⟩) }
  else if t.raw_data.length ≠ data.length then
    .error (.tableNewColumnSizeMismatch t.name t.raw_data.length n data.length)
  else
    .ok { t with raw_data := List.zipWith (fun r v => ⟨r.data ++ [v]⟩) t.raw_data data }

/-- Modelled from the spec: a schema is a named set of table handles
(§3, §4.4; `schema.rs` is absent from the sources). -/
structure Schema where
  name : String
  tables : List TableIndex

/-- Modelled from the spec: `Schema::new` (`schema.rs` is absent from the
sources). -/
def Schema.new (n : String) : Schema :=
  ⟨n, []⟩

/-- Modelled from the spec: `Schema::add_table` (`schema.rs` is absent from the
sources). -/
def Schema.add_table (s : Schema) (t : TableIndex) : Schema :=
  { s with tables := s.tables ++ [t] }

/-- Modelled from the spec: a database is a named collection of schemas with
one designated default schema always present (§3, §4.4; `database.rs` is
absent from the sources).  The default schema is the head of the list and is
named after the database. -/
structure Database where
  name : String
  schemas : List Schema

/-- Modelled from the spec: `Database::new` (`database.rs` is absent from the
sources); the default schema always exists, named after the database. -/
def Database.new (n : String) : Database :=
  ⟨n, [Schema.new n]⟩

/-- Modelled from the spec: `Database::default_schema` (`database.rs` is absent
from the sources). -/
def Database.default_schema (d : Database) : Schema :=
  d.schemas.headD (Schema.new d.name)

/-- Modelled from the spec: `Database::schema_by_name` (`database.rs` is absent
from the sources), exact case-sensitive lookup (§4.4). -/
def Database.schema_by_name (d : Database) (n : String) : Option Schema :=
  d.schemas.find? (fun s => decide (s.name = n))

/-- Modelled from the spec: `Database::add_schema` (`database.rs` is absent from
the sources). -/
def Database.add_schema (d : Database) (s : Schema) : Database :=
  { d with schemas := d.schemas ++ [s] }

/-- Modelled from the spec: the in-place update through `schema_by_name_mut`
(`database.rs` is absent from the sources; schema names are unique within a
database). -/
def Database.update_schema_by_name (d : Database) (n : String)
    (f : Schema → Schema) : Database :=
  { d with schemas := d.schemas.map (fun s => if s.name = n then f s else s) }

/-- Modelled from the spec: the in-place update through `default_schema_mut`
(`database.rs` is absent from the sources). -/
def Database.update_default_schema (d : Database) (f : Schema → Schema) : Database :=
  match d.schemas with
  | [] => d
  | s :: rest => { d with schemas := f s :: rest }

/-- Modelled from the spec: the instruction set (the `Instruction` enum of
`ic.rs` is absent from the sources; constructors and field names are
reconstructed from their uses in vm.rs and §4.2).  `ret` is the source's `Return`, renamed because `return`
is reserved in Lean. -/
inductive Instruction where
  | value (index : RegisterIndex) (value : Value)
  | expr (index : RegisterIndex) (expr : Expr)
  | source (index : RegisterIndex) (name : TableRef)
  | empty (index : RegisterIndex)
  | ret (index : RegisterIndex)
  | filter (index : RegisterIndex) (expr : Expr)
  | project (input : RegisterIndex) (output : RegisterIndex) (expr : Expr)
      (alias_name : Option String)
  | groupBy (index : RegisterIndex) (expr : Expr)
  | order (index : RegisterIndex) (expr : Expr) (ascending : Bool)
  | limit (index : RegisterIndex) (limit : Nat)
  | newSchema (schema_name : String) (exists_ok : Bool)
  | columnDef (index : RegisterIndex) (name : String) (data_type : DataType)
  | addColumnOption (index : RegisterIndex) (option : ColumnOption)
  | addColumn (table_reg_index : RegisterIndex) (col_index : RegisterIndex)
  | newTable (index : RegisterIndex) (name : TableRef) (exists_ok : Bool)
  | dropTable (index : RegisterIndex)
  | removeColumn (index : RegisterIndex) (col_name : String)
  | renameColumn (index : RegisterIndex) (old_name : String) (new_name : String)
  | insertDef (table_reg_index : RegisterIndex) (index : RegisterIndex)
  | columnInsertDef (insert_index : RegisterIndex) (col_name : String)
  | rowDef (insert_index : RegisterIndex) (row_index : RegisterIndex)
  | addValue (row_index : RegisterIndex) (expr : Expr)
  | insert (index : RegisterIndex)
  | update (index : RegisterIndex) (col : String) (expr : Expr)
  | union (input1 : RegisterIndex) (input2 : RegisterIndex) (output : RegisterIndex)
  | crossJoin (input1 : RegisterIndex) (input2 : RegisterIndex) (output : RegisterIndex)
  | naturalJoin (input1 : RegisterIndex) (input2 : RegisterIndex) (output : RegisterIndex)

/-- The state owned by the `VirtualMachine` (vm.rs): one `Database`, the
register map, the table arena, and the `last_table_index` counter. -/
structure VmState where
  database : Database
  registers : List (RegisterIndex × Register)
  tables : List (TableIndex × Table)
  last_table_index : TableIndex

/-- Source `VirtualMachine::new` (vm.rs). -/
def VirtualMachine.new (name : String) : VmState :=
  ⟨Database.new name, [], [], ⟨0⟩⟩

/-- The outcome of executing VM code: a typed success or error, or a Rust
panic (`todo!()` / failed `unwrap` / out-of-bounds index).  Errors and panics
carry the state as mutated so far (the VM does not roll back). -/
inductive Outcome (α : Type) where
  | ok (s : VmState) (val : α)
  | err (e : RuntimeError) (s : VmState)
  | panicked (s : VmState)

/-- The success value of an outcome, if any. -/
def Outcome.resultTable : Outcome (Option Table) → Option (Option Table)
  | .ok _ v => some v
  | _ => none

/-- The state an outcome left behind. -/
def Outcome.finalState {α : Type} : Outcome α → VmState
  | .ok s _ => s
  | .err _ s => s
  | .panicked s => s

/-- Source `VirtualMachine::new_temp_table` (vm.rs): computes the successor of
`last_table_index` and stores a fresh temp table there.  Note that, exactly
as in the source, the `last_table_index` field itself is never advanced. -/
def new_temp_table (s : VmState) : TableIndex × VmState :=
  let index := s.last_table_index.next_index
  (index, { s with tables := mapInsert s.tables index (Table.new_temp index.val) })

/-- The result of a lookup helper that can fail or panic without touching
state. -/
inductive Lookup (α : Type) where
  | ok (a : α)
  | err (e : RuntimeError)
  | panicked

/-- The scan inside `VirtualMachine::find_table` (vm.rs): first handle in the
schema whose table is named as requested; indexing `self.tables[table_index]`
panics on a dangling handle. -/
def find_table_go (s : VmState) (tr : TableRef) : List TableIndex → Lookup TableIndex
  | [] => .err (.tableNotFound tr)
  | ti :: rest =>
    match mapGet s.tables ti with
    | none => .panicked
    | some t => if t.name = tr.table_name then .ok ti else find_table_go s tr rest

/-- Source `VirtualMachine::find_table` (vm.rs). -/
def find_table (s : VmState) (sch : Schema) (tr : TableRef) : Lookup TableIndex :=
  find_table_go s tr sch.tables

/-- Source `VirtualMachine::find_schema` (vm.rs): the named schema, or the default
schema when no name is given. -/
def find_schema (s : VmState) (n : Option String) : Except RuntimeError Schema :=
  match n with
  | some sn =>
    match Database.schema_by_name s.database sn with
    | some sch => .ok sch
    | none => .error (.schemaNotFound sn)
  | none => .ok (Database.default_schema s.database)

/-- The row scan of the `Filter` instruction (vm.rs lines 176-195): per row,
`Bool(true)` keeps, `Bool(false)` drops, any other value is
`FilterWithNonBoolean`, and evaluation errors propagate; collection stops at
the first failure. -/
def filterRows (e : Expr) (t : Table) : List Row → Except RuntimeError (List Row)
  | [] => .ok []
  | r :: rest =>
    match Expr.execute e t r with
    | .ok (.bool true) =>
      match filterRows e t rest with
      | .ok rs => .ok (r :: rs)
      | .error err => .error err
    | .ok (.bool false) => filterRows e t rest
    | .ok v => .error (.filterWithNonBoolean e v)
    | .error ex => .error (.exprExecError ex)

/-- The per-column loop of the `Project` instruction on `Wildcard` (vm.rs
lines 228-236): append each input column and copy its data; on failure the
partially mutated output table is returned with the error. -/
def projectWildcard (inp : Table) : Table → List Column →
    Except (RuntimeError × Table) Table
  | out, [] => .ok out
  | out, c :: cs =>
    let out1 := out.add_column c
    match inp.get_column_data c.name with
    | .error e => .error (e, out1)
    | .ok data =>
      match out1.add_column_data c.name data with
      | .error e => .error (e, out1)
      | .ok out2 => projectWildcard inp out2 cs

/-- The zip loop of the non-wildcard `Project` (vm.rs lines 238-243):
evaluate the expression on each input row and push the result onto the
corresponding output row; the zip stops at the shorter side.  On failure the
error is returned together with the output rows as mutated so far. -/
def projectRows (inp : Table) (e : Expr) : List Row → List Row →
    Except (ExprExecError × List Row) (List Row)
  | _, [] => .ok []
  | [], outs => .ok outs
  | ir :: irs, o :: os =>
    match Expr.execute e inp ir with
    | .error ex => .error (ex, o :: os)
    | .ok v =>
      match projectRows inp e irs os with
      | .ok rest => .ok (⟨o.data ++ [v]⟩ :: rest)
      | .error (ex, rest) => .error (ex, ⟨o.data ++ [v]⟩ :: rest)

/-- Evaluate an expression on every row (the key vector of `Order`,
vm.rs lines 294-298). -/
def evalRows (e : Expr) (t : Table) : List Row → Except ExprExecError (List Value)
  | [] => .ok []
  | r :: rs =>
    match Expr.execute e t r with
    | .error ex => .error ex
    | .ok v =>
      match evalRows e t rs with
      | .error ex => .error ex
      | .ok vs => .ok (v :: vs)

/-- Stable insertion used by the sort below: an element goes after all
strictly smaller ones and before equals. -/
def insertSorted {α : Type} (le : α → α → Bool) (x : α) : List α → List α
  | [] => [x]
  | y :: ys => if le y x && !le x y then y :: insertSorted le x ys else x :: y :: ys

/-- Stable insertion sort (models `permutation::sort`, which sorts stably). -/
def insertionSort {α : Type} (le : α → α → Bool) : List α → List α
  | [] => []
  | x :: xs => insertSorted le x (insertionSort le xs)

/-- Apply the sorting permutation of the key vector to the rows (vm.rs lines
299-300): sort keyed pairs stably by the `Value` total order. -/
def sortRows (keys : List Value) (rows : List Row) : List Row :=
  (insertionSort (fun a b => Value.le a.1 b.1) (keys.zip rows)).map (fun p => p.2)

/-- Source `VirtualMachine::execute_instr` (vm.rs lines 120-562), arm by arm in the
source's order.  `HashMap::remove` is modelled as a lookup followed by
`mapRemove`; `todo!()` and failed `unwrap`s become `Outcome.panicked`. -/
def execute_instr (s : VmState) (instr : Instruction) : Outcome (Option Table) :=
  match instr with
  | .value index v =>
    .ok { s with registers := mapInsert s.registers index (.value v) } none
  | .expr index e =>
    .ok { s with registers := mapInsert s.registers index (.expr e) } none
  | .source index name =>
    match name.schema_name with
    | none =>
      match find_table s (Database.default_schema s.database) name with
      | .ok ti =>
        .ok { s with registers := mapInsert s.registers index (.tableRef ti) } none
      | .err e => .err e s
      | .panicked => .panicked s
    | some schema_name =>
      match Database.schema_by_name s.database schema_name with
      | none => .err (.schemaNotFound schema_name) s
      | some sch =>
        match find_table s sch name with
        | .ok ti =>
          .ok { s with registers := mapInsert s.registers index (.tableRef ti) } none
        | .err e => .err e s
        | .panicked => .panicked s
  | .empty index =>
    let p := new_temp_table s
    .ok { p.2 with registers := mapInsert p.2.registers index (.tableRef p.1) } none
  | .ret index =>
    match mapGet s.registers index with
    | none => .err (.emptyRegister index) s
    | some reg =>
      let s1 := { s with registers := mapRemove s.registers index }
      match reg with
      | .tableRef t =>
        match mapGet s.tables t with
        | some tbl => .ok s1 (some tbl)
        | none => .panicked s1
      | .value v =>
        .ok s1 (some (((Table.new_temp s.last_table_index.next_index.val).add_column
          (Column.new "?column?" v.data_type [] false)).new_row [v]))
      | reg => .err (.cannotReturn reg) s1
  | .filter index e =>
    match mapGet s.registers index with
    | none => .err (.emptyRegister index) s
    | some (.tableRef table_index) =>
      match mapGet s.tables table_index with
      | none => .panicked s
      | some table =>
        match filterRows e table table.raw_data with
        | .ok filtered =>
          let table1 : Table := { table with raw_data := filtered }
          .ok { s with tables := mapInsert s.tables table_index table1 } none
        | .error err => .err err s
    | some reg => .err (.registerNotATable "filter" reg) s
  | .project input output e alias_name =>
    match mapGet s.registers input, mapGet s.registers output with
    | none, _ => .err (.emptyRegister input) s
    | _, none => .err (.emptyRegister output) s
    | some (.tableRef inp_ti), some (.tableRef out_ti) =>
      if inp_ti = out_ti then .panicked s
      else
        match mapGet s.tables inp_ti, mapGet s.tables out_ti with
        | some inp_table, some out_table =>
          if !out_table.is_empty
              && (inp_table.raw_data.length != out_table.raw_data.length) then
            .err (.projectTableSizeMismatch inp_table.name inp_table.raw_data.length
              out_table.name out_table.raw_data.length) s
          else
            match e with
            | .wildcard =>
              match projectWildcard inp_table out_table inp_table.columns with
              | .ok out2 =>
                .ok { s with tables := mapInsert s.tables out_ti out2 } none
              | .error (e2, mutatedOut) =>
                .err e2 { s with tables := mapInsert s.tables out_ti mutatedOut }
            | e =>
              match projectRows inp_table e inp_table.raw_data out_table.raw_data with
              | .error (ex, mutatedRows) =>
                let outMutated : Table := { out_table with raw_data := mutatedRows }
                .err (.exprExecError ex)
                  { s with tables := mapInsert s.tables out_ti outMutated }
              | .ok newRows =>
                let outPushed : Table := { out_table with raw_data := newRows }
                match newRows.head? with
                | some r0 =>
                  match r0.data.getLast? with
                  | none =>
                    .panicked { s with tables := mapInsert s.tables out_ti outPushed }
                  | some v =>
                    let out2 := Table.add_column outPushed
                      (Column.new (alias_name.getD "PLACEHOLDER") v.data_type [] false)
                    .ok { s with tables := mapInsert s.tables out_ti out2 } none
                | none =>
                  match inp_table.sentinel_row with
                  | .error ex => .err (.exprExecError ex) s
                  | .ok srow =>
                    match Expr.execute e inp_table srow with
                    | .error ex => .err (.exprExecError ex) s
                    | .ok v =>
                      let out2 := Table.add_column outPushed
                        (Column.new (alias_name.getD "PLACEHOLDER") v.data_type [] false)
                      .ok { s with tables := mapInsert s.tables out_ti out2 } none
        | _, _ => .panicked s
    | some reg, some (.tableRef _) => .err (.registerNotATable "project" reg) s
    | some (.tableRef _), some reg => .err (.registerNotATable "project" reg) s
    | some reg, some _ => .err (.registerNotATable "project" reg) s
  | .groupBy _ _ => .panicked s
  | .order index e ascending =>
    match mapGet s.registers index with
    | none => .err (.emptyRegister index) s
    | some (.tableRef ti) =>
      match mapGet s.tables ti with
      | none => .panicked s
      | some table =>
        match evalRows e table table.raw_data with
        | .error ex => .err (.exprExecError ex) s
        | .ok keys =>
          let sorted := sortRows keys table.raw_data
          let final := if ascending then sorted else sorted.reverse
          let table1 : Table := { table with raw_data := final }
          .ok { s with tables := mapInsert s.tables ti table1 } none
    | some reg => .err (.registerNotATable "order by" reg) s
  | .limit index n =>
    match mapGet s.registers index with
    | none => .err (.emptyRegister index) s
    | some (.tableRef ti) =>
      match mapGet s.tables ti with
      | none => .panicked s
      | some table =>
        let table1 : Table := { table with raw_data := table.raw_data.take n }
        .ok { s with tables := mapInsert s.tables ti table1 } none
    | some reg => .err (.registerNotATable "limit" reg) s
  | .newSchema schema_name exists_ok =>
    match Database.schema_by_name s.database schema_name with
    | none =>
      .ok { s with database := Database.add_schema s.database (Schema.new schema_name) }
        none
    | some _ =>
      if exists_ok then .ok s none else .err (.schemaExists schema_name) s
  | .columnDef index name data_type =>
    let reg : Register := .column (Column.new name data_type [] false)
    .ok { s with registers := mapInsert s.registers index reg } none
  | .addColumnOption index opt =>
    match mapGet s.registers index with
    | some (.column c) =>
      let reg : Register := .column (c.add_column_option opt)
      .ok { s with registers := mapInsert s.registers index reg } none
    | some reg => .err (.registerNotAColumn "add column option" reg) s
    | none => .err (.emptyRegister index) s
  | .addColumn table_reg_index col_index =>
    match mapGet s.registers table_reg_index with
    | none => .err (.emptyRegister table_reg_index) s
    | some (.tableRef ti) =>
      match mapGet s.tables ti with
      | none => .panicked s
      | some table =>
        match mapGet s.registers col_index with
        | some (.column c) =>
          .ok { s with tables := mapInsert s.tables ti (table.add_column c) } none
        | some reg => .err (.registerNotAColumn "add column" reg) s
        | none => .err (.emptyRegister col_index) s
    | some reg => .err (.registerNotATable "add column" reg) s
  | .newTable index name exists_ok =>
    match mapGet s.registers index with
    | none => .err (.emptyRegister index) s
    | some (.tableRef ti) =>
      match mapGet s.tables ti with
      | none => .panicked s
      | some table =>
        let s1 := { s with tables := mapInsert s.tables ti (table.rename name.table_name) }
        match find_schema s1 name.schema_name with
        | .error e => .err e s1
        | .ok sch =>
          match find_table s1 sch name with
          | .ok _ => if exists_ok then .ok s1 none else .err (.tableExists name) s1
          | .err (.tableNotFound _) =>
            match name.schema_name with
            | some sn =>
              let db1 := Database.update_schema_by_name s1.database sn (fun sc => sc.add_table ti)
              .ok { s1 with database := db1 } none
            | none =>
              let db1 := Database.update_default_schema s1.database (fun sc => sc.add_table ti)
              .ok { s1 with database := db1 } none
          | .err e => .err e s1
          | .panicked => .panicked s1
    | some reg => .err (.registerNotATable "new table" reg) s
  | .dropTable _ => .panicked s
  | .removeColumn _ _ => .panicked s
  | .renameColumn _ _ _ => .panicked s
  | .insertDef table_reg_index index =>
    match mapGet s.registers table_reg_index with
    | none => .err (.emptyRegister table_reg_index) s
    | some (.tableRef ti) =>
      let reg : Register := .insertDef (InsertDef.new ti)
      .ok { s with registers := mapInsert s.registers index reg } none
    | some reg => .err (.registerNotATable "insert def" reg) s
  | .columnInsertDef insert_index col_name =>
    match mapGet s.registers insert_index with
    | some (.insertDef ins) =>
      match mapGet s.tables ins.table with
      | none => .panicked s
      | some table =>
        match table.get_column col_name with
        | .error e => .err e s
        | .ok (i, c) =>
          let reg : Register := .insertDef { ins with columns := ins.columns ++ [(i, c)] }
          .ok { s with registers := mapInsert s.registers insert_index reg } none
    | some reg => .err (.registerNotAInsert "column insert def" reg) s
    | none => .err (.emptyRegister insert_index) s
  | .rowDef insert_index row_reg_index =>
    match mapGet s.registers insert_index with
    | some (.insertDef ins) =>
      let ins1 := { ins with rows := ins.rows ++ [[]] }
      let rowReg : Register := .insertRow ⟨insert_index, ins1.rows.length - 1⟩
      let regs1 := mapInsert (mapInsert s.registers insert_index (.insertDef ins1)) row_reg_index rowReg
      .ok { s with registers := regs1 } none
    | some reg => .err (.registerNotAInsert "row def" reg) s
    | none => .err (.emptyRegister insert_index) s
  | .addValue row_reg_index e =>
    match mapGet s.registers row_reg_index with
    | some (.insertRow ir) =>
      match mapGet s.registers ir.defReg with
      | some (.insertDef ins) =>
        match mapGet s.tables ins.table with
        | none => .panicked s
        | some table =>
          match table.sentinel_row with
          | .error ex => .err (.exprExecError ex) s
          | .ok srow =>
            match Expr.execute e table srow with
            | .error ex => .err (.exprExecError ex) s
            | .ok v =>
              match ins.rows.get? ir.row_index with
              | none => .panicked s
              | some row =>
                let reg : Register :=
                  .insertDef { ins with rows := ins.rows.set ir.row_index (row ++ [v]) }
                .ok { s with registers := mapInsert s.registers ir.defReg reg } none
      | some reg => .err (.registerNotAInsert "row def" reg) s
      | none => .err (.emptyRegister ir.defReg) s
    | some reg => .err (.registerNotAInsertRow "add value" reg) s
    | none => .err (.emptyRegister row_reg_index) s
  | .insert insert_index =>
    match mapGet s.registers insert_index with
    | none => .err (.emptyRegister insert_index) s
    | some reg =>
      let s1 := { s with registers := mapRemove s.registers insert_index }
      match reg with
      | .insertDef ins =>
        match mapGet s.tables ins.table with
        | none => .panicked s1
        | some table =>
          match ins.columns with
          | [] =>
            let table1 := ins.rows.foldl (fun t row => t.new_row row) table
            .ok { s1 with tables := mapInsert s1.tables ins.table table1 } none
          | _ :: _ => .panicked s1
      | reg => .err (.registerNotAInsert "insert" reg) s1
  | .update _ _ _ => .panicked s
  | .union _ _ _ => .panicked s
  | .crossJoin _ _ _ => .panicked s
  | .naturalJoin _ _ _ => .panicked s

/-- Source `VirtualMachine::execute_ic` (vm.rs lines 111-117): run every instruction
in order, the running `ret` being overwritten by each instruction's result;
the value of the last instruction is returned. -/
def execute_ic (s : VmState) : List Instruction → Outcome (Option Table)
  | [] => .ok s none
  | [i] => execute_instr s i
  | i :: j :: rest =>
    match execute_instr s i with
    | .ok s2 _ => execute_ic s2 (j :: rest)
    | .err e s2 => .err e s2
    | .panicked s2 => .panicked s2

/-- Modelled from the spec: `VirtualMachine::execute` (vm.rs lines 100-108)
parses and lowers each statement before running it; the parser and
code-generator are external collaborators absent from the sources, so here
the statements arrive pre-lowered and only the statement loop is modelled:
`ret` is overwritten by each statement's `execute_ic` result. -/
def execute (s : VmState) : List (List Instruction) → Outcome (Option Table)
  | [] => .ok s none
  | [ic] => execute_ic s ic
  | ic :: ic2 :: rest =>
    match execute_ic s ic with
    | .ok s2 _ => execute s2 (ic2 :: rest)
    | .err e s2 => .err e s2
    | .panicked s2 => .panicked s2

/-- The parser's binary operators (`sqlparser::ast::BinaryOperator` is an
external crate type; `other` stands for every remaining variant, which
expr.rs rejects). -/
inductive AstBinaryOperator where
  | plus
  | minus
  | multiply
  | divide
  | modulo
  | eq
  | notEq
  | lt
  | ltEq
  | gt
  | gtEq
  | like
  | iLike
  | and
  | or
  | other

/-- The parser's unary operators (`sqlparser::ast::UnaryOperator`; `other`
stands for every remaining variant). -/
inductive AstUnaryOperator where
  | plus
  | minus
  | not
  | other

/-- Modelled from the spec: the parser's literal values
(`sqlparser::ast::Value`); `unsupported` stands for literals whose conversion
to a `Value` fails (`value.rs` is absent from the sources). -/
inductive AstValue where
  | number (n : Int)
  | boolean (b : Bool)
  | singleQuotedString (s : String)
  | null
  | unsupported

mutual
/-- The parser's expression tree (`sqlparser::ast::Expr`), restricted to the
variants expr.rs consumes; `other` stands for every remaining variant, which
the conversion rejects as unsupported. -/
inductive AstExpr where
  | identifier (name : String)
  | compoundIdentifier (parts : List String)
  | isFalse (e : AstExpr)
  | isTrue (e : AstExpr)
  | isNull (e : AstExpr)
  | isNotNull (e : AstExpr)
  | between (e : AstExpr) (negated : Bool) (low : AstExpr) (high : AstExpr)
  | binaryOp (left : AstExpr) (op : AstBinaryOperator) (right : AstExpr)
  | unaryOp (op : AstUnaryOperator) (e : AstExpr)
  | value (v : AstValue)
  | function (name : String) (args : List AstFunctionArg)
  | other

/-- The parser's function-argument node (`sqlparser::ast::FunctionArg`,
external crate). -/
inductive AstFunctionArg where
  | unnamed (a : AstFunctionArgExpr)
  | named

/-- The parser's function-argument payload (`sqlparser::ast::FunctionArgExpr`,
external crate). -/
inductive AstFunctionArgExpr where
  | expr (e : AstExpr)
  | wildcard
  | qualifiedWildcard
end

/-- Lowering-time expression errors (expr.rs `ExprError`); the ast-node
payloads of the source variants are dropped, keeping the reason strings. -/
inductive ExprError where
  | exprUnsupported (reason : String)
  | binaryUnsupported (reason : String)
  | unaryUnsupported (reason : String)
  | valueError (reason : String)

/-- Source `TryFrom<ast::BinaryOperator> for BinOp` (expr.rs lines 157-183). -/
def binOpTryFrom : AstBinaryOperator → Except ExprError BinOp
  | .plus => .ok .plus
  | .minus => .ok .minus
  | .multiply => .ok .multiply
  | .divide => .ok .divide
  | .modulo => .ok .modulo
  | .eq => .ok .equal
  | .notEq => .ok .notEqual
  | .lt => .ok .lessThan
  | .ltEq => .ok .lessThanOrEqual
  | .gt => .ok .greaterThan
  | .gtEq => .ok .greaterThanOrEqual
  | .like => .ok .like
  | .iLike => .ok .iLike
  | .and => .ok .and
  | .or => .ok .or
  | .other => .error (.binaryUnsupported "Unknown binary operator")

/-- Source `TryFrom<ast::UnaryOperator> for UnOp` (expr.rs lines 185-200). -/
def unOpTryFrom : AstUnaryOperator → Except ExprError UnOp
  | .plus => .ok .plus
  | .minus => .ok .minus
  | .not => .ok .not
  | .other => .error (.unaryUnsupported "Unkown unary operator")

/-- Modelled from the spec: `TryFrom<ast::Value> for Value` (`value.rs` is
absent from the sources); literal conversion, with `unsupported` signalling a
`ValueError`. -/
def valueTryFrom : AstValue → Except ExprError Value
  | .number n => .ok (.int64 n)
  | .boolean b => .ok (.bool b)
  | .singleQuotedString s => .ok (.varchar s)
  | .null => .ok .null
  | .unsupported => .error (.valueError "bad literal conversion")

mutual
/-- Source `TryFrom<ast::Expr> for Expr` (expr.rs lines 65-155), arm by arm in the
source's order.  In particular `BETWEEN` desugars by converting the subject
first, then the bounds, and building
`(low ≤ subject) AND (subject ≤ high)`, wrapped in `Not` when negated. -/
def exprTryFrom : AstExpr → Except ExprError Expr
  | .identifier i => .ok (.columnRef [i])
  | .compoundIdentifier parts => .ok (.columnRef parts)
  | .isFalse e =>
    match exprTryFrom e with
    | .ok e1 => .ok (.unary .isFalse e1)
    | .error err => .error err
  | .isTrue e =>
    match exprTryFrom e with
    | .ok e1 => .ok (.unary .isTrue e1)
    | .error err => .error err
  | .isNull e =>
    match exprTryFrom e with
    | .ok e1 => .ok (.unary .isNull e1)
    | .error err => .error err
  | .isNotNull e =>
    match exprTryFrom e with
    | .ok e1 => .ok (.unary .isNotNull e1)
    | .error err => .error err
  | .between e negated low high =>
    match exprTryFrom e with
    | .error err => .error err
    | .ok x =>
      match exprTryFrom low with
      | .error err => .error err
      | .ok l =>
        match exprTryFrom high with
        | .error err => .error err
        | .ok h =>
          let between := Expr.binary (Expr.binary l .lessThanOrEqual x) .and
            (Expr.binary x .lessThanOrEqual h)
          if negated then .ok (.unary .not between) else .ok between
  | .binaryOp l op r =>
    match exprTryFrom l with
    | .error err => .error err
    | .ok l1 =>
      match binOpTryFrom op with
      | .error err => .error err
      | .ok op1 =>
        match exprTryFrom r with
        | .error err => .error err
        | .ok r1 => .ok (.binary l1 op1 r1)
  | .unaryOp op e =>
    match unOpTryFrom op with
    | .error err => .error err
    | .ok op1 =>
      match exprTryFrom e with
      | .ok e1 => .ok (.unary op1 e1)
      | .error err => .error err
  | .value v =>
    match valueTryFrom v with
    | .ok v1 => .ok (.value v1)
    | .error err => .error err
  | .function name args =>
    match argsTryFrom args with
    | .ok es => .ok (.function name es)
    | .error err => .error err
  | .other => .error (.exprUnsupported "Unsupported expression")

/-- The argument loop inside the `Function` arm of the conversion
(expr.rs lines 130-147). -/
def argsTryFrom : List AstFunctionArg → Except ExprError (List Expr)
  | [] => .ok []
  | a :: rest =>
    match argTryFrom a with
    | .error err => .error err
    | .ok e =>
      match argsTryFrom rest with
      | .ok es => .ok (e :: es)
      | .error err => .error err

/-- One function argument of the conversion (expr.rs lines 133-146). -/
def argTryFrom : AstFunctionArg → Except ExprError Expr
  | .unnamed (.expr e) => exprTryFrom e
  | .unnamed .wildcard => .ok .wildcard
  | .unnamed .qualifiedWildcard =>
    .error (.exprUnsupported "Qualified wildcards are not supported yet")
  | .named => .error (.exprUnsupported "Named function arguments are not supported")
end

/-- Whether the filter predicate keeps a row: it does exactly when it
evaluates to `Bool(true)`. -/
def keepRow (e : Expr) (t : Table) (r : Row) : Bool :=
  match Expr.execute e t r with
  | .ok (.bool true) => true
  | _ => false

/-- Fixture: a user table `t` with one integer column `a` and one row `(1)`. -/
def t1 : Table :=
  ⟨"t", [Column.new "a" DataType.int [] false], [⟨[Value.int64 1]⟩], false⟩

/-- Fixture: a VM whose register `%0` refers to table `t1` stored at handle 1. -/
def s2 : VmState :=
  ⟨Database.new "default", [(⟨0⟩, Register.tableRef ⟨1⟩)], [(⟨1⟩, t1)], ⟨1⟩⟩

/-- Fixture: `t1` after a filter by the constant predicate `true`. -/
def t1Kept : Table :=
  { t1 with raw_data := t1.raw_data.filter (keepRow (.value (.bool true)) t1) }

/-- Fixture: a VM with registers `%0 ↦ t1` (one row) and `%1 ↦` a fresh empty
temporary table, as the lowerer sets them up for a projection. -/
def c4State : VmState :=
  ⟨Database.new "default",
   [(⟨0⟩, Register.tableRef ⟨1⟩), (⟨1⟩, Register.tableRef ⟨2⟩)],
   [(⟨1⟩, t1), (⟨2⟩, Table.new_temp 2)], ⟨2⟩⟩

/-- Fixture: a VM whose register `%0` holds an insert definition with a
non-empty column list. -/
def s3 : VmState :=
  ⟨Database.new "default",
   [(⟨0⟩, Register.insertDef ⟨⟨1⟩, [(0, Column.new "a" DataType.int [] false)], []⟩)],
   [], ⟨0⟩⟩

/-- Fixture: a VM whose register `%0` holds the scalar value `3`. -/
def s8 : VmState :=
  ⟨Database.new "default", [(⟨0⟩, Register.value (Value.int64 3))], [], ⟨0⟩⟩

/-- Fixture: the fresh VM after executing the single statement
`[Value %0 ← 1]`. -/
def s1after : VmState :=
  ⟨Database.new "default", [(⟨0⟩, Register.value (Value.int64 1))], [], ⟨0⟩⟩

/-- Fixture: the fresh VM after executing the single statement
`[Value %0 ← 7]`. -/
def s6after : VmState :=
  ⟨Database.new "default", [(⟨0⟩, Register.value (Value.int64 7))], [], ⟨0⟩⟩

/-- When every row's predicate value is a boolean, the filter scan succeeds
and keeps exactly the rows evaluating to `Bool(true)`, in order. -/
theorem filterRows_all_bool (e : Expr) (t : Table) (rows : List Row)
    (h : ∀ r ∈ rows, ∃ b, Expr.execute e t r = .ok (.bool b)) :
    filterRows e t rows = .ok (rows.filter (keepRow e t)) := by
  induction rows with
  | nil => rfl
  | cons r rest ih =>
    obtain ⟨b, hb⟩ := h r (List.mem_cons_self r rest)
    have hrest := ih (fun x hx => h x (List.mem_cons_of_mem r hx))
    cases b with
    | true => simp [filterRows, hb, hrest, keepRow, List.filter_cons]
    | false => simp [filterRows, hb, hrest, keepRow, List.filter_cons]

/-- When some row's predicate value is an error or not a boolean, the filter
scan fails. -/
theorem filterRows_has_bad (e : Expr) (t : Table) (rows : List Row)
    (h : ∃ r ∈ rows, ∀ b : Bool, Expr.execute e t r ≠ .ok (.bool b)) :
    ∃ err, filterRows e t rows = .error err := by
  induction rows with
  | nil => simp at h
  | cons r rest ih =>
    obtain ⟨r0, hr0, hbad⟩ := h
    rcases List.mem_cons.mp hr0 with heq | hmem
    · subst heq
      cases hv : Expr.execute e t r0 with
      | error ex => exact ⟨.exprExecError ex, by simp [filterRows, hv]⟩
      | ok v =>
        cases v with
        | bool b => exact absurd hv (hbad b)
        | null => exact ⟨.filterWithNonBoolean e .null, by simp [filterRows, hv]⟩
        | int64 i =>
          exact ⟨.filterWithNonBoolean e (.int64 i), by simp [filterRows, hv]⟩
        | varchar str =>
          exact ⟨.filterWithNonBoolean e (.varchar str), by simp [filterRows, hv]⟩
    · obtain ⟨err, herr⟩ := ih ⟨r0, hmem, hbad⟩
      cases hv : Expr.execute e t r with
      | error ex => exact ⟨.exprExecError ex, by simp [filterRows, hv]⟩
      | ok v =>
        cases v with
        | bool b =>
          cases b with
          | true => exact ⟨err, by simp [filterRows, hv, herr]⟩
          | false => exact ⟨err, by simp [filterRows, hv, herr]⟩
        | null => exact ⟨.filterWithNonBoolean e .null, by simp [filterRows, hv]⟩
        | int64 i =>
          exact ⟨.filterWithNonBoolean e (.int64 i), by simp [filterRows, hv]⟩
        | varchar str =>
          exact ⟨.filterWithNonBoolean e (.varchar str), by simp [filterRows, hv]⟩

/-- Claim C1, counterexample: on a fresh VM, in the single statement
`[Value %0 ← 1; Return %0; Value %1 ← 2]` the `Value %1` instruction after
the first `Return` is executed (register `%1` is written), and the
statement's result is `None` even though a `Return` executed — refuting both
"no instruction after the first Return is executed" and "the host receives
Some(table)", here for a program whose `Return` is not last.  Likewise,
across the two statements `[Value %0 ← 1; Return %0]` and `[Value %1 ← 2]`,
`execute` yields `None`, not the last non-null `Return` value. -/
theorem C1_return_counterexample :
    Outcome.resultTable (execute_ic (VirtualMachine.new "default")
      [Instruction.value ⟨0⟩ (Value.int64 1), Instruction.ret ⟨0⟩,
       Instruction.value ⟨1⟩ (Value.int64 2)]) = some none ∧
    mapGet (Outcome.finalState (execute_ic (VirtualMachine.new "default")
      [Instruction.value ⟨0⟩ (Value.int64 1), Instruction.ret ⟨0⟩,
       Instruction.value ⟨1⟩ (Value.int64 2)])).registers ⟨1⟩
      = some (Register.value (Value.int64 2)) ∧
    Outcome.resultTable (execute (VirtualMachine.new "default")
      [[Instruction.value ⟨0⟩ (Value.int64 1), Instruction.ret ⟨0⟩],
       [Instruction.value ⟨1⟩ (Value.int64 2)]]) = some none :=
  ⟨rfl, rfl, rfl⟩

/-- Claim C1, amended: `Return` does not break the instruction loop.
`execute_ic` runs every instruction and returns the value of the last one:
whenever a prefix of the program executes successfully, appending one more
instruction makes the program's outcome exactly that instruction's outcome in
the prefix's final state — so a statement yields `Some(table)` precisely when
its last executed instruction is a successful `Return`, and `execute` returns
the last statement's value. -/
theorem C1_last_instruction_decides (s s1 : VmState) (r : Option Table)
    (instrs : List Instruction) (i : Instruction)
    (h : execute_ic s instrs = .ok s1 r) :
    execute_ic s (instrs ++ [i]) = execute_instr s1 i := by
  induction instrs generalizing s r with
  | nil =>
    simp [execute_ic] at h
    obtain ⟨h1, _⟩ := h
    subst h1
    simp [execute_ic]
  | cons a rest ih =>
    cases rest with
    | nil =>
      simp [execute_ic] at h
      simp [execute_ic, h]
    | cons b rest2 =>
      simp only [execute_ic] at h
      cases ha : execute_instr s a with
      | ok s2 r2 =>
        rw [ha] at h
        simp only [List.cons_append, execute_ic, ha]
        have := ih s2 r h
        simpa using this
      | err e2 s2 => rw [ha] at h; simp at h
      | panicked s2 => rw [ha] at h; simp at h

/-- Claim C1, witness for the amended theorem at a concrete program. -/
theorem C1_last_instruction_decides_witness :
    execute_ic (VirtualMachine.new "default")
      ([Instruction.value ⟨0⟩ (Value.int64 1)] ++ [Instruction.ret ⟨0⟩]) =
    execute_instr s1after (Instruction.ret ⟨0⟩) :=
  C1_last_instruction_decides (VirtualMachine.new "default") s1after none
    [Instruction.value ⟨0⟩ (Value.int64 1)] (Instruction.ret ⟨0⟩) rfl

/-- Claim C2, counterexample: filtering the one-row table `t1` by the
constant predicate `Null` raises `FilterWithNonBoolean` (leaving the state
untouched) instead of dropping the row and producing the empty table. -/
theorem C2_null_counterexample :
    execute_instr s2 (.filter ⟨0⟩ (.value .null)) =
      .err (.filterWithNonBoolean (.value .null) .null) s2 :=
  rfl

/-- Claim C2, amended: for a `Filter` on a table-handle register, rows whose
predicate value is `Bool(true)` are kept and `Bool(false)` dropped (in
order), but any other value — `Null` included — raises
`FilterWithNonBoolean`; in particular a predicate yielding `Null` for every
row of a non-empty table fails with `FilterWithNonBoolean` rather than
producing the empty table. -/
theorem C2_filter_row_fate (s : VmState) (idx : RegisterIndex) (ti : TableIndex)
    (t : Table) (e : Expr)
    (hreg : mapGet s.registers idx = some (.tableRef ti))
    (htab : mapGet s.tables ti = some t) :
    ((∀ r ∈ t.raw_data, ∃ b, Expr.execute e t r = .ok (.bool b)) →
      execute_instr s (.filter idx e) =
        .ok { s with tables := mapInsert s.tables ti { t with raw_data := t.raw_data.filter (keepRow e t) } } none) ∧
    ((∀ r ∈ t.raw_data, Expr.execute e t r = .ok .null) → t.raw_data ≠ [] →
      execute_instr s (.filter idx e) = .err (.filterWithNonBoolean e .null) s) := by
  constructor
  · intro hall
    have hfr := filterRows_all_bool e t t.raw_data hall
    simp [execute_instr, hreg, htab, hfr]
  · intro hnull hne
    cases hd : t.raw_data with
    | nil => exact absurd hd hne
    | cons r rest =>
      have hr : Expr.execute e t r = .ok .null := by
        refine hnull r ?_
        rw [hd]
        exact List.mem_cons_self r rest
      simp [execute_instr, hreg, htab, hd, filterRows, hr]

/-- Claim C2, witness for the amended theorem: filtering `t1` by the constant
predicate `true` keeps its row. -/
theorem C2_filter_row_fate_witness :
    execute_instr s2 (.filter ⟨0⟩ (.value (.bool true))) =
      .ok { s2 with tables := mapInsert s2.tables ⟨1⟩ t1Kept } none :=
  (C2_filter_row_fate s2 ⟨0⟩ ⟨1⟩ t1 (.value (.bool true)) rfl rfl).1
    (fun _ _ => ⟨true, rfl⟩)

/-- Claim C3: executing any reserved instruction (`GroupBy`, `DropTable`,
`RemoveColumn`, `RenameColumn`, `Update`, `Union`, `CrossJoin`,
`NaturalJoin`, or `Insert` on a register holding a non-empty column list)
panics via `todo!()` — it does not return a typed `Unimplemented` failure
(indeed, `RuntimeError` has no such variant). -/
theorem C3_reserved_panics (s : VmState) (r1 r2 r3 : RegisterIndex) (e : Expr)
    (cn nn col : String) (ti : TableIndex) (c : Nat × Column)
    (cs : List (Nat × Column)) (rows : List (List Value))
    (hreg : mapGet s.registers r1 = some (Register.insertDef ⟨ti, c :: cs, rows⟩)) :
    execute_instr s (.groupBy r2 e) = .panicked s ∧
    execute_instr s (.dropTable r2) = .panicked s ∧
    execute_instr s (.removeColumn r2 cn) = .panicked s ∧
    execute_instr s (.renameColumn r2 cn nn) = .panicked s ∧
    execute_instr s (.update r2 col e) = .panicked s ∧
    execute_instr s (.union r2 r3 r1) = .panicked s ∧
    execute_instr s (.crossJoin r2 r3 r1) = .panicked s ∧
    execute_instr s (.naturalJoin r2 r3 r1) = .panicked s ∧
    execute_instr s (.insert r1) =
      .panicked { s with registers := mapRemove s.registers r1 } := by
  refine ⟨rfl, rfl, rfl, rfl, rfl, rfl, rfl, rfl, ?_⟩
  simp only [execute_instr, hreg]
  cases mapGet s.tables ti <;> rfl

/-- Claim C3, witness: a concrete `Insert` whose definition carries a
non-empty column list panics. -/
theorem C3_reserved_panics_witness :
    execute_instr s3 (.insert ⟨0⟩) =
      .panicked { s3 with registers := mapRemove s3.registers ⟨0⟩ } :=
  (C3_reserved_panics s3 ⟨0⟩ ⟨1⟩ ⟨2⟩ Expr.wildcard "c" "d" "u" ⟨1⟩
    (0, Column.new "a" DataType.int [] false) [] [] rfl).2.2.2.2.2.2.2.2

/-- Claim C4: evaluating `Project %0 → %1, expr 5, alias a` where `%0` holds
the one-row table `t1` and `%1` holds a fresh empty temporary table succeeds
— yet creates no output rows at all (the zip with the empty output row list
is empty), leaving `|out.rows| = 0 ≠ 1 = |in.rows|` and only appending the
new column; the projected value never appears. -/
theorem C4_project_empty_out_bug :
    Outcome.resultTable (execute_instr c4State
      (.project ⟨0⟩ ⟨1⟩ (.value (.int64 5)) (some "a"))) = some none ∧
    (mapGet (Outcome.finalState (execute_instr c4State
      (.project ⟨0⟩ ⟨1⟩ (.value (.int64 5)) (some "a")))).tables ⟨2⟩).map
      (fun t => t.raw_data.length) = some 0 ∧
    (mapGet (Outcome.finalState (execute_instr c4State
      (.project ⟨0⟩ ⟨1⟩ (.value (.int64 5)) (some "a")))).tables ⟨2⟩).map
      (fun t => t.columns.length) = some 1 ∧
    t1.raw_data.length = 1 :=
  ⟨rfl, rfl, rfl, rfl⟩

/-- Claim C5: `new_temp_table` computes `last_table_index.next_index()` but
never stores it back, so on a fresh VM two consecutive calls (two `Empty`
instructions) both yield `TableIndex 1`, the counter stays at 0, the second
temp table overwrites the first (one table entry remains), and both
registers end up referring to the same handle. -/
theorem C5_counter_never_advances :
    (new_temp_table (VirtualMachine.new "default")).1 = ⟨1⟩ ∧
    (new_temp_table (new_temp_table (VirtualMachine.new "default")).2).1 = ⟨1⟩ ∧
    (new_temp_table (VirtualMachine.new "default")).2.last_table_index = ⟨0⟩ ∧
    (new_temp_table (new_temp_table (VirtualMachine.new "default")).2).2.tables.length
      = 1 ∧
    mapGet (Outcome.finalState (execute_ic (VirtualMachine.new "default")
      [Instruction.empty ⟨0⟩, Instruction.empty ⟨1⟩])).registers ⟨0⟩
      = some (Register.tableRef ⟨1⟩) ∧
    mapGet (Outcome.finalState (execute_ic (VirtualMachine.new "default")
      [Instruction.empty ⟨0⟩, Instruction.empty ⟨1⟩])).registers ⟨1⟩
      = some (Register.tableRef ⟨1⟩) :=
  ⟨rfl, rfl, rfl, rfl, rfl, rfl⟩

/-- Claim C6, counterexample: running the statement `[Value %0 ← 7]` and then
the statement `[Return %0]` through the statement loop yields the one-row
result table synthesized from the value `7` — the register written by the
first statement was read by the second, so the registers map does carry
content across statements. -/
theorem C6_registers_persist_counterexample :
    Outcome.resultTable (execute (VirtualMachine.new "default")
      [[Instruction.value ⟨0⟩ (Value.int64 7)], [Instruction.ret ⟨0⟩]])
      = some (some ⟨tempTableName 1, [Column.new "?column?" DataType.int [] false],
          [⟨[Value.int64 7]⟩], true⟩) :=
  rfl

/-- Claim C6, amended: the VM never clears the register map between
statements; each subsequent statement runs in exactly the state — registers
included — left by its predecessor, so a register written by one statement
stays readable in the next unless overwritten or consumed; per-statement
register lifetime is a lowerer convention, not enforced by the VM. -/
theorem C6_state_threads_across_statements (s s1 : VmState) (r : Option Table)
    (ic1 ic2 : List Instruction) (ics : List (List Instruction))
    (h : execute_ic s ic1 = .ok s1 r) :
    execute s (ic1 :: ic2 :: ics) = execute s1 (ic2 :: ics) := by
  simp only [execute, h]

/-- Claim C6, witness for the amended theorem at a concrete pair of
statements. -/
theorem C6_state_threads_across_statements_witness :
    execute (VirtualMachine.new "default")
      [[Instruction.value ⟨0⟩ (Value.int64 7)], [Instruction.ret ⟨0⟩]] =
    execute s6after [[Instruction.ret ⟨0⟩]] :=
  C6_state_threads_across_statements (VirtualMachine.new "default") s6after none
    [Instruction.value ⟨0⟩ (Value.int64 7)] [Instruction.ret ⟨0⟩] [] rfl

/-- Claim C7: whenever the subject and both bounds convert successfully,
lowering `x BETWEEN a AND b` produces `(a ≤ x) AND (x ≤ b)` — built from
`LessThanOrEqual` and `And` with the subject subtree duplicated — and
`x NOT BETWEEN a AND b` produces that expression wrapped in `Not`. -/
theorem C7_between_desugars (x a b : AstExpr) (x1 a1 b1 : Expr)
    (hx : exprTryFrom x = .ok x1) (ha : exprTryFrom a = .ok a1)
    (hb : exprTryFrom b = .ok b1) :
    exprTryFrom (.between x false a b) =
      .ok (.binary (.binary a1 .lessThanOrEqual x1) .and
        (.binary x1 .lessThanOrEqual b1)) ∧
    exprTryFrom (.between x true a b) =
      .ok (.unary .not (.binary (.binary a1 .lessThanOrEqual x1) .and
        (.binary x1 .lessThanOrEqual b1))) := by
  refine ⟨?_, ?_⟩ <;> simp [exprTryFrom, hx, ha, hb]

/-- Claim C7, witness at `x BETWEEN 2 AND 10`. -/
theorem C7_between_desugars_witness :
    exprTryFrom (.between (.identifier "x") false (.value (.number 2))
      (.value (.number 10))) =
    .ok (.binary (.binary (.value (.int64 2)) .lessThanOrEqual (.columnRef ["x"]))
      .and (.binary (.columnRef ["x"]) .lessThanOrEqual (.value (.int64 10)))) :=
  (C7_between_desugars (.identifier "x") (.value (.number 2)) (.value (.number 10))
    (.columnRef ["x"]) (.value (.int64 2)) (.value (.int64 10)) rfl rfl rfl).1

/-- Claim C8: `Return` on a register holding a table handle (whose table
exists) returns a clone of that table; on a scalar value `v` it returns a
fresh one-row, one-column table whose column is named `?column?` with the
value's `DataType` and whose single row holds `v`; on any other register kind
it fails with `CannotReturn`; on an unset register it fails with
`EmptyRegister`. -/
theorem C8_return_semantics (s : VmState) (idx : RegisterIndex) (ti : TableIndex)
    (t : Table) (v : Value) (reg : Register) :
    (mapGet s.registers idx = none →
      execute_instr s (.ret idx) = .err (.emptyRegister idx) s) ∧
    (mapGet s.registers idx = some (.tableRef ti) → mapGet s.tables ti = some t →
      execute_instr s (.ret idx) =
        .ok { s with registers := mapRemove s.registers idx } (some t)) ∧
    (mapGet s.registers idx = some (.value v) →
      execute_instr s (.ret idx) =
        .ok { s with registers := mapRemove s.registers idx }
          (some ⟨tempTableName s.last_table_index.next_index.val,
            [Column.new "?column?" v.data_type [] false], [⟨[v]⟩], true⟩)) ∧
    (mapGet s.registers idx = some reg → (∀ ti2, reg ≠ .tableRef ti2) →
      (∀ v2, reg ≠ .value v2) →
      execute_instr s (.ret idx) =
        .err (.cannotReturn reg) { s with registers := mapRemove s.registers idx }) := by
  refine ⟨?_, ?_, ?_, ?_⟩
  · intro h
    simp [execute_instr, h]
  · intro h1 h2
    simp [execute_instr, h1, h2]
  · intro h
    simp [execute_instr, h, Table.new_temp, Table.add_column, Table.new_row]
  · intro h h1 h2
    cases reg with
    | tableRef t2 => exact absurd rfl (h1 t2)
    | value v2 => exact absurd rfl (h2 v2)
    | groupedTable a b c => simp [execute_instr, h]
    | tableDef a b => simp [execute_instr, h]
    | column c => simp [execute_instr, h]
    | insertDef d => simp [execute_instr, h]
    | insertRow ir => simp [execute_instr, h]
    | expr e => simp [execute_instr, h]

/-- Claim C8, witness: returning the scalar register `3` yields the
synthesized `?column?` table. -/
theorem C8_return_semantics_witness :
    execute_instr s8 (.ret ⟨0⟩) =
      .ok { s8 with registers := mapRemove s8.registers ⟨0⟩ }
        (some ⟨tempTableName 1, [Column.new "?column?" DataType.int [] false],
          [⟨[Value.int64 3]⟩], true⟩) :=
  (C8_return_semantics s8 ⟨0⟩ ⟨1⟩ t1 (Value.int64 3)
    (Register.value (Value.int64 3))).2.2.1 rfl

/-- Claim C9: `NewSchema` adds a fresh schema when the name is unused; when a
schema of that name exists it fails with `SchemaExists` and leaves the
database unchanged if `exists_ok` is false, and succeeds silently leaving the
database unchanged if `exists_ok` is true. -/
theorem C9_new_schema_semantics (s : VmState) (name : String) (exists_ok : Bool) :
    (Database.schema_by_name s.database name = none →
      execute_instr s (.newSchema name exists_ok) =
        .ok { s with database := Database.add_schema s.database (Schema.new name) }
          none) ∧
    (Database.schema_by_name s.database name ≠ none → exists_ok = false →
      execute_instr s (.newSchema name exists_ok) = .err (.schemaExists name) s) ∧
    (Database.schema_by_name s.database name ≠ none → exists_ok = true →
      execute_instr s (.newSchema name exists_ok) = .ok s none) := by
  refine ⟨?_, ?_, ?_⟩
  · intro h
    simp [execute_instr, h]
  · intro h hok
    cases hs : Database.schema_by_name s.database name with
    | none => exact absurd hs h
    | some sch => subst hok; simp [execute_instr, hs]
  · intro h hok
    cases hs : Database.schema_by_name s.database name with
    | none => exact absurd hs h
    | some sch => subst hok; simp [execute_instr, hs]

/-- Claim C9, witness: creating schema `s1` on a fresh VM adds it. -/
theorem C9_new_schema_semantics_witness :
    execute_instr (VirtualMachine.new "default") (.newSchema "s1" false) =
      .ok { VirtualMachine.new "default" with
        database := Database.add_schema (Database.new "default") (Schema.new "s1") }
        none :=
  (C9_new_schema_semantics (VirtualMachine.new "default") "s1" false).1 rfl

/-- Claim C10: `Filter` is atomic on failure — if some row's predicate value
is an evaluation error or a non-boolean value, the instruction fails and the
state (in particular the referenced table's rows) is left exactly as it was:
the new row vector is fully collected before being assigned. -/
theorem C10_filter_atomic_on_failure (s : VmState) (idx : RegisterIndex)
    (ti : TableIndex) (t : Table) (e : Expr)
    (hreg : mapGet s.registers idx = some (.tableRef ti))
    (htab : mapGet s.tables ti = some t)
    (hbad : ∃ r ∈ t.raw_data, ∀ b : Bool, Expr.execute e t r ≠ .ok (.bool b)) :
    ∃ err, execute_instr s (.filter idx e) = .err err s := by
  obtain ⟨err, herr⟩ := filterRows_has_bad e t t.raw_data hbad
  exact ⟨err, by simp [execute_instr, hreg, htab, herr]⟩

/-- Claim C10, witness: filtering `t1` by the constant `Null` predicate fails
and leaves the state untouched. -/
theorem C10_filter_atomic_on_failure_witness :
    ∃ err, execute_instr s2 (.filter ⟨0⟩ (.value .null)) = .err err s2 :=
  C10_filter_atomic_on_failure s2 ⟨0⟩ ⟨1⟩ t1 (.value .null) rfl rfl
    ⟨⟨[Value.int64 1]⟩, by simp [t1], fun b h => by simp [Expr.execute] at h⟩

end OtterSql
